import Mathlib

/-!
Verification development for the insurance-document summarizer
(`src/gemini1.py`).  The Python program is shallowly embedded: JSON values
become an inductive type `JVal`, the dictionary accesses performed by the
script become total Lean functions that make Python's exception behaviour
explicit via `Except`/`Option`, and the network call is abstracted by an
`HttpResponse` record handed to the pure part of `summarize_document`.
-/

/-- JSON values as produced by Python's `json.loads`.  Numbers that are
written as integers are kept as `Int`; numbers written with a fraction,
an exponent, or the non-standard `NaN`/`Infinity` lexemes that
`json.loads` accepts are kept as their source lexeme in `float`
(no claim observes a float, only whether decoding succeeds). -/
inductive JVal where
  | null  : JVal
  | bool  : Bool → JVal
  | num   : Int → JVal
  | float : String → JVal
  | str   : String → JVal
  | arr   : List JVal → JVal
  | obj   : List (String × JVal) → JVal

/-- First-match association-list lookup; the JSON decoder below collapses
duplicate keys the way a Python `dict` does, so objects it produces have
distinct keys. -/
def jlookup : List (String × JVal) → String → Option JVal
  | [], _ => none
  | (k, v) :: rest, key => if k = key then some v else jlookup rest key

/-- Python truthiness of a JSON value: `None`, `False`, `0`, `""`, `[]`
and the empty dict are falsy, everything else is truthy. -/
def JVal.truthy : JVal → Bool
  | .null => false
  | .bool b => b
  | .num n => decide (n ≠ 0)
  | .float _ => true
  | .str s => decide (s ≠ "")
  | .arr xs => !xs.isEmpty
  | .obj kvs => !kvs.isEmpty

/-- Python `d.get(k)`: on a dict returns the stored value or `None`;
on any other value the attribute access raises (`Except.error`). -/
def pyGetMethod (j : JVal) (k : String) : Except Unit JVal :=
  match j with
  | .obj kvs => .ok ((jlookup kvs k).getD .null)
  | _ => .error ()

/-- Python `d.get(k, default)`: like `pyGetMethod` but with an explicit
default for a missing key. -/
def pyGetMethodD (j : JVal) (k : String) (default : JVal) : Except Unit JVal :=
  match j with
  | .obj kvs => .ok ((jlookup kvs k).getD default)
  | _ => .error ()

/-- Python `d[k]` with a string key: a missing key or a non-dict receiver
raises (`KeyError`/`TypeError`). -/
def pySubscriptStr (j : JVal) (k : String) : Except Unit JVal :=
  match j with
  | .obj kvs =>
    match jlookup kvs k with
    | some v => .ok v
    | none => .error ()
  | _ => .error ()

/-- Python `x[0]`: first element of a list, first character of a nonempty
string (as a one-character string); anything else raises. -/
def pySubscriptZero (j : JVal) : Except Unit JVal :=
  match j with
  | .arr (x :: _) => .ok x
  | .str s =>
    match s.toList with
    | c :: _ => .ok (.str (String.mk [c]))
    | [] => .error ()
  | _ => .error ()

/-- The whitespace characters removed by Python's `str.strip()`
(the ASCII/Latin-1 ones; other Unicode space code points exist in Python
but never arise in the strings this development evaluates). -/
def pyIsSpace (c : Char) : Bool :=
  c = ' ' || c = '\t' || c = '\n' || c = '\r' || c = '\x0b' || c = '\x0c' ||
  c = '\x1c' || c = '\x1d' || c = '\x1e' || c = '\x1f' || c = '\x85' || c = '\xa0'

/-- Python `s.strip()`: remove whitespace from both ends. -/
def pyStrip (s : String) : String :=
  String.mk (((s.toList.dropWhile pyIsSpace).reverse.dropWhile pyIsSpace).reverse)

/-- Character-list prefix test. -/
def charsPrefix : List Char → List Char → Bool
  | [], _ => true
  | _ :: _, [] => false
  | p :: ps, c :: cs => p = c && charsPrefix ps cs

/-- Python `s.startswith(p)`. -/
def pyStartswith (s p : String) : Bool := charsPrefix p.toList s.toList

/-- Python `s.endswith(p)`. -/
def pyEndswith (s p : String) : Bool := charsPrefix p.toList.reverse s.toList.reverse

/-- Lines 104-105 of `gemini1.py`: if the candidate text starts with the
literal "```json" and ends with "```", take `json_string[7:-3]` and then
apply Python `.strip()`; otherwise leave the text unchanged. -/
def stripFence (s : String) : String :=
  if pyStartswith s "```json" && pyEndswith s "```" then
    pyStrip ((s.drop 7).dropRight 3)
  else s

/-! ### A model of Python's `json.loads`

`gemini1.py` decodes JSON twice (the HTTP envelope and the candidate
text).  The decoder below follows the grammar accepted by Python's
`json.loads` with its default arguments: JSON values with `true`,
`false`, `null`, the non-standard `NaN`/`Infinity`/`-Infinity` lexemes,
strings with the standard escapes including `\uXXXX` with surrogate
pairs, and numbers (integer numbers are represented exactly; numbers
with a fraction or exponent are kept as their lexeme).  One deliberate
modelling boundary: an escaped lone surrogate, which CPython tolerates
inside a decoded string, is rejected here because a Lean `String`
cannot hold it; no theorem below exercises that corner. -/

/-- JSON inter-token whitespace, as skipped by `json.loads`. -/
def skipWs : List Char → List Char
  | c :: cs => if c = ' ' || c = '\t' || c = '\n' || c = '\r' then skipWs cs else c :: cs
  | [] => []

/-- Value of one hexadecimal digit. -/
def hexDigitVal (c : Char) : Option Nat :=
  if '0' ≤ c ∧ c ≤ '9' then some (c.toNat - '0'.toNat)
  else if 'a' ≤ c ∧ c ≤ 'f' then some (c.toNat - 'a'.toNat + 10)
  else if 'A' ≤ c ∧ c ≤ 'F' then some (c.toNat - 'A'.toNat + 10)
  else none

/-- Parse the body of a JSON string after the opening quote, returning the
decoded characters and the input remaining after the closing quote. -/
def parseStrBody : List Char → Option (List Char × List Char)
  | [] => none
  | c :: cs =>
    if c = '"' then some ([], cs)
    else if c = '\\' then
      match cs with
      | [] => none
      | e :: cs2 =>
        if e = 'u' then
          match cs2 with
          | h1 :: h2 :: h3 :: h4 :: cs6 =>
            match hexDigitVal h1, hexDigitVal h2, hexDigitVal h3, hexDigitVal h4 with
            | some a, some b, some c1, some d =>
              let n := a * 4096 + b * 256 + c1 * 16 + d
              if 0xd800 ≤ n ∧ n < 0xdc00 then
                match cs6 with
                | '\\' :: 'u' :: g1 :: g2 :: g3 :: g4 :: cs12 =>
                  match hexDigitVal g1, hexDigitVal g2, hexDigitVal g3, hexDigitVal g4 with
                  | some a2, some b2, some c2, some d2 =>
                    let m := a2 * 4096 + b2 * 256 + c2 * 16 + d2
                    if 0xdc00 ≤ m ∧ m < 0xe000 then
                      match parseStrBody cs12 with
                      | some (content, rest) =>
                        some (Char.ofNat (0x10000 + (n - 0xd800) * 0x400 + (m - 0xdc00)) :: content, rest)
                      | none => none
                    else none
                  | _, _, _, _ => none
                | _ => none
              else if 0xdc00 ≤ n ∧ n < 0xe000 then none
              else
                match parseStrBody cs6 with
                | some (content, rest) => some (Char.ofNat n :: content, rest)
                | none => none
            | _, _, _, _ => none
          | _ => none
        else
          match (if e = '"' then some '"' else if e = '\\' then some '\\'
                 else if e = '/' then some '/' else if e = 'b' then some '\x08'
                 else if e = 'f' then some '\x0c' else if e = 'n' then some '\n'
                 else if e = 'r' then some '\r' else if e = 't' then some '\t'
                 else none) with
          | some ch =>
            match parseStrBody cs2 with
            | some (content, rest) => some (ch :: content, rest)
            | none => none
          | none => none
    else if c.toNat < 0x20 then none
    else
      match parseStrBody cs with
      | some (content, rest) => some (c :: content, rest)
      | none => none

/-- Longest prefix of decimal digits. -/
def takeDigits : List Char → (List Char × List Char)
  | c :: cs =>
    if '0' ≤ c ∧ c ≤ '9' then
      let p := takeDigits cs
      (c :: p.1, p.2)
    else ([], c :: cs)
  | [] => ([], [])

/-- Numeric value of a digit string. -/
def digitsToNat (ds : List Char) : Nat :=
  ds.foldl (fun acc c => acc * 10 + (c.toNat - '0'.toNat)) 0

/-- Consume a literal character sequence. -/
def dropLit : List Char → List Char → Option (List Char)
  | [], cs => some cs
  | l :: ls, c :: cs => if c = l then dropLit ls cs else none
  | _ :: _, [] => none

/-- Parse an exponent part `e`/`E` with optional sign; returns the
consumed characters and the rest. -/
def parseExpPart : List Char → Option (List Char × List Char)
  | e :: cs =>
    if e = 'e' || e = 'E' then
      let sgn : List Char × List Char :=
        match cs with
        | '+' :: r => (['+'], r)
        | '-' :: r => (['-'], r)
        | _ => ([], cs)
      match takeDigits sgn.2 with
      | ([], _) => none
      | (ds, rest) => some (e :: (sgn.1 ++ ds), rest)
    else none
  | [] => none

/-- Parse a JSON number following the `json.loads` grammar.  A plain
integer becomes `JVal.num`; a fraction or exponent produces a
`JVal.float` carrying the lexeme. -/
def parseNumber (cs : List Char) : Option (JVal × List Char) :=
  let sgn : List Char × List Char :=
    match cs with
    | '-' :: rest => (['-'], rest)
    | _ => ([], cs)
  match takeDigits sgn.2 with
  | ([], _) => none
  | (ds, rest1) =>
    if 1 < ds.length ∧ ds.headD 'x' = '0' then none
    else
      let fracRes : Option (List Char × List Char) :=
        match rest1 with
        | '.' :: rest2 =>
          match takeDigits rest2 with
          | ([], _) => none
          | (fs, rest3) => some ('.' :: fs, rest3)
        | _ => some ([], rest1)
      match fracRes with
      | none => none
      | some (fracCs, rest3) =>
        match parseExpPart rest3 with
        | some (expCs, rest4) =>
          some (.float (String.mk (sgn.1 ++ ds ++ fracCs ++ expCs)), rest4)
        | none =>
          if fracCs.isEmpty then
            let n : Int := Int.ofNat (digitsToNat ds)
            some (.num (if sgn.1.isEmpty then n else -n), rest1)
          else
            some (.float (String.mk (sgn.1 ++ ds ++ fracCs)), rest3)

/-- Insert a key into an object the way assignment into a Python `dict`
does: an existing key keeps its position and gets the new value. -/
def insertKey : List (String × JVal) → String → JVal → List (String × JVal)
  | [], k, v => [(k, v)]
  | (k0, v0) :: rest, k, v =>
    if k0 = k then (k0, v) :: rest else (k0, v0) :: insertKey rest k v

/-- Parser mode: a plain value, the member list of an object, or the
element list of an array. -/
inductive PMode where
  | value   : PMode
  | members (acc : List (String × JVal)) : PMode
  | elems   (acc : List JVal) : PMode

/-- Fuel-indexed recursive descent over the `json.loads` grammar. -/
def parseF : Nat → PMode → List Char → Option (JVal × List Char)
  | 0, _, _ => none
  | Nat.succ fuel, PMode.value, cs =>
    match skipWs cs with
    | [] => none
    | c :: r =>
      if c = '"' then
        match parseStrBody r with
        | some (content, rest) => some (.str (String.mk content), rest)
        | none => none
      else if c = '\x7b' then
        match skipWs r with
        | '\x7d' :: r2 => some (.obj [], r2)
        | _ => parseF fuel (PMode.members []) r
      else if c = '[' then
        match skipWs r with
        | ']' :: r2 => some (.arr [], r2)
        | _ => parseF fuel (PMode.elems []) r
      else
        match dropLit "true".toList (c :: r) with
        | some rest => some (.bool true, rest)
        | none =>
        match dropLit "false".toList (c :: r) with
        | some rest => some (.bool false, rest)
        | none =>
        match dropLit "null".toList (c :: r) with
        | some rest => some (.null, rest)
        | none =>
        match dropLit "NaN".toList (c :: r) with
        | some rest => some (.float "NaN", rest)
        | none =>
        match dropLit "Infinity".toList (c :: r) with
        | some rest => some (.float "Infinity", rest)
        | none =>
        match dropLit "-Infinity".toList (c :: r) with
        | some rest => some (.float "-Infinity", rest)
        | none => parseNumber (c :: r)
  | Nat.succ fuel, PMode.members acc, cs =>
    match skipWs cs with
    | '"' :: r =>
      match parseStrBody r with
      | some (keyCs, rest) =>
        (match skipWs rest with
         | ':' :: rest2 =>
           match parseF fuel PMode.value rest2 with
           | some (v, rest3) =>
             let acc2 := insertKey acc (String.mk keyCs) v
             (match skipWs rest3 with
              | ',' :: rest4 => parseF fuel (PMode.members acc2) rest4
              | '\x7d' :: rest4 => some (.obj acc2, rest4)
              | _ => none)
           | none => none
         | _ => none)
      | none => none
    | _ => none
  | Nat.succ fuel, PMode.elems acc, cs =>
    match parseF fuel PMode.value cs with
    | some (v, rest) =>
      (match skipWs rest with
       | ',' :: rest2 => parseF fuel (PMode.elems (acc ++ [v])) rest2
       | ']' :: rest2 => some (.arr (acc ++ [v]), rest2)
       | _ => none)
    | none => none

/-- Python `json.loads`: decode a whole string as one JSON value;
anything but trailing whitespace after the value is an error. -/
def parseJson (s : String) : Option JVal :=
  match parseF (2 * s.length + 2) PMode.value s.toList with
  | some (v, rest) => if (skipWs rest).isEmpty then some v else none
  | none => none

/-! ### UTF-8 (for `uploaded_file.getvalue().decode("utf-8")`, line 230)

Bytes are modelled as `Nat`s below 256.  The decoder is the validating
decoder Python's `bytes.decode("utf-8")` implements: it rejects
continuation-byte errors, overlong forms, surrogates and code points
above `0x10FFFF`, exactly the cases CPython raises `UnicodeDecodeError`
for. -/

/-- UTF-8 encoding of one unicode scalar value. -/
def utf8EncodeChar (c : Char) : List Nat :=
  let n := c.toNat
  if n < 0x80 then [n]
  else if n < 0x800 then [0xc0 + n / 0x40, 0x80 + n % 0x40]
  else if n < 0x10000 then
    [0xe0 + n / 0x1000, 0x80 + (n / 0x40) % 0x40, 0x80 + n % 0x40]
  else
    [0xf0 + n / 0x40000, 0x80 + (n / 0x1000) % 0x40, 0x80 + (n / 0x40) % 0x40, 0x80 + n % 0x40]

/-- UTF-8 encoding of a character list. -/
def utf8EncodeList : List Char → List Nat
  | [] => []
  | c :: cs => utf8EncodeChar c ++ utf8EncodeList cs

/-- UTF-8 encoding of a string. -/
def utf8Encode (s : String) : List Nat :=
  utf8EncodeList s.toList

/-- Decode the continuation of a two-byte UTF-8 sequence. -/
def decodeTwo (b1 : Nat) : List Nat → Option (Char × List Nat)
  | b2 :: t2 =>
    if 0x80 ≤ b2 ∧ b2 < 0xc0 then
      some (Char.ofNat ((b1 - 0xc0) * 0x40 + (b2 - 0x80)), t2)
    else none
  | [] => none

/-- Decode the continuation of a three-byte UTF-8 sequence, rejecting
overlong forms (`b1 = 0xe0` needs `b2 ≥ 0xa0`) and surrogates
(`b1 = 0xed` needs `b2 < 0xa0`). -/
def decodeThree (b1 : Nat) : List Nat → Option (Char × List Nat)
  | b2 :: b3 :: t3 =>
    if (0x80 ≤ b2 ∧ b2 < 0xc0) ∧ (0x80 ≤ b3 ∧ b3 < 0xc0)
        ∧ (b1 = 0xe0 → 0xa0 ≤ b2) ∧ (b1 = 0xed → b2 < 0xa0) then
      some (Char.ofNat ((b1 - 0xe0) * 0x1000 + (b2 - 0x80) * 0x40 + (b3 - 0x80)), t3)
    else none
  | _ => none

/-- Decode the continuation of a four-byte UTF-8 sequence, rejecting
overlong forms (`b1 = 0xf0` needs `b2 ≥ 0x90`) and code points above
`0x10FFFF` (`b1 = 0xf4` needs `b2 < 0x90`). -/
def decodeFour (b1 : Nat) : List Nat → Option (Char × List Nat)
  | b2 :: b3 :: b4 :: t4 =>
    if (0x80 ≤ b2 ∧ b2 < 0xc0) ∧ (0x80 ≤ b3 ∧ b3 < 0xc0) ∧ (0x80 ≤ b4 ∧ b4 < 0xc0)
        ∧ (b1 = 0xf0 → 0x90 ≤ b2) ∧ (b1 = 0xf4 → b2 < 0x90) then
      some (Char.ofNat ((b1 - 0xf0) * 0x40000 + (b2 - 0x80) * 0x1000
              + (b3 - 0x80) * 0x40 + (b4 - 0x80)), t4)
    else none
  | _ => none

/-- Decode one UTF-8 code point from the front of a byte list, returning
the character and the remaining bytes.  A leading byte in `0x80..0xc1`
(a stray continuation byte or an overlong two-byte form) or in
`0xf5..0xff` is invalid. -/
def utf8DecodeOne : List Nat → Option (Char × List Nat)
  | [] => none
  | b1 :: t1 =>
    if b1 < 0x80 then some (Char.ofNat b1, t1)
    else if b1 < 0xc2 then none
    else if b1 < 0xe0 then decodeTwo b1 t1
    else if b1 < 0xf0 then decodeThree b1 t1
    else if b1 < 0xf5 then decodeFour b1 t1
    else none

/-- Validating UTF-8 decoder on byte lists, peeling one code point per
step.  The fuel only bounds the recursion; one byte is consumed per
step, so `bs.length` steps always suffice. -/
def utf8DecodeListF : Nat → List Nat → Option (List Char)
  | _, [] => some []
  | 0, _ :: _ => none
  | Nat.succ fuel, b1 :: t1 =>
    match utf8DecodeOne (b1 :: t1) with
    | some (c, rest) => (utf8DecodeListF fuel rest).map (fun cs => c :: cs)
    | none => none

/-- Python `bytes.decode("utf-8")`: the whole byte list must decode. -/
def utf8Decode (bs : List Nat) : Option String :=
  match utf8DecodeListF bs.length bs with
  | some cs => some (String.mk cs)
  | none => none

/-! ### The summarization client (`summarize_document`, lines 96-120)

The network call is abstracted by the `HttpResponse` the POST produced;
everything `summarize_document` then does with it (`raise_for_status`,
`response.json()`, the candidate-path check, fence stripping,
`json.loads`) is pure and embedded below.  The function body builds the
request from `document_text` alone (see the prompt-builder section), so
the outcome depends only on the response. -/

/-- An HTTP response as seen by `requests.post`: status code and body
text (`response.text`). -/
structure HttpResponse where
  status : Nat
  body   : String

/-- The observable result of one `summarize_document` call.  `ok` is the
parsed dict the function returns; every other constructor is one of the
`return None` paths together with what the accompanying error display
carries: `apiError` for the `requests` exception raised by
`raise_for_status` (the exception keeps the status and the response at
hand), `emptyResponse` for the candidate-path check failing (the raw
envelope is shown with `st.json`), `decodeError` for a JSON decode
failure (the raw `response.text` is shown with `st.text`), and
`unexpectedError` for the catch-all `except Exception` handler. -/
inductive Outcome where
  | ok (summary : JVal)
  | apiError (status : Nat) (body : String)
  | emptyResponse (envelope : JVal)
  | decodeError (rawText : String)
  | unexpectedError

/-- Whether an outcome is the `emptyResponse` failure. -/
def Outcome.isEmptyResponse : Outcome → Bool
  | .emptyResponse _ => true
  | _ => false

/-- Lines 101-102: evaluate the short-circuit condition
`result.get("candidates") and result["candidates"][0].get("content") and
result["candidates"][0]["content"].get("parts")` and, when it is truthy,
read `result["candidates"][0]["content"]["parts"][0]["text"]`.
`Except.error` is any Python exception escaping to the catch-all
handler; `Except.ok none` is the falsy-condition `else` branch. -/
def extractCandidateText (result : JVal) : Except Unit (Option JVal) := do
  let cands ← pyGetMethod result "candidates"
  if cands.truthy then
    let cands1 ← pySubscriptStr result "candidates"
    let c0 ← pySubscriptZero cands1
    let content ← pyGetMethod c0 "content"
    if content.truthy then
      let cands2 ← pySubscriptStr result "candidates"
      let c0b ← pySubscriptZero cands2
      let content2 ← pySubscriptStr c0b "content"
      let parts ← pyGetMethod content2 "parts"
      if parts.truthy then
        let parts2 ← pySubscriptStr content2 "parts"
        let p0 ← pySubscriptZero parts2
        let t ← pySubscriptStr p0 "text"
        return some t
      else
        return none
    else
      return none
  else
    return none

/-- Lines 101-120 applied to a successfully decoded envelope `result`:
dispatch on the candidate path, strip the fence, decode the candidate
text.  `raw` is `response.text`, displayed by the `json.JSONDecodeError`
handler. -/
def handleParsed (raw : String) (result : JVal) : Outcome :=
  match extractCandidateText result with
  | .error _ => .unexpectedError
  | .ok none => .emptyResponse result
  | .ok (some t) =>
    match t with
    | .str s =>
      match parseJson (stripFence s) with
      | some j => .ok j
      | none => .decodeError raw
    | _ => .unexpectedError

/-- The pure part of `summarize_document` (lines 96-120) as a function of
the HTTP response.  `raise_for_status` raises for status codes 400-599,
and the raised `HTTPError` is a `requests.exceptions.RequestException`,
so it lands in the first handler; the exception object carries the
status and the response.  A body that `response.json()` cannot decode is
a JSON decode failure (depending on the installed `requests` version the
exception is caught by the first or the second handler; either way the
call returns `None`, and we record it with the decode-failure outcome
carrying `response.text`). -/
def summarize_document (r : HttpResponse) : Outcome :=
  if 400 ≤ r.status ∧ r.status < 600 then .apiError r.status r.body
  else
    match parseJson r.body with
    | none => .decodeError r.body
    | some result => handleParsed r.body result

/-! ### Module-level pipeline state (lines 227-298) -/

/-- Lines 244-249: any previous `summary_data` is deleted, then the slot
is assigned the value `summarize_document` returned.  After a run the
session therefore holds the returned dict on success and `None`
(modelled as `none`) on every failure path. -/
def sessionAfterRun (o : Outcome) : Option JVal :=
  match o with
  | .ok j => some j
  | _ => none

/-- Lines 251 and 293-294: the summary report is rendered only when
`summary_data` is truthy; otherwise the page shows the
"Failed to generate summary" error message. -/
def displaysFailureMessage (o : Outcome) : Bool :=
  match o with
  | .ok j => !j.truthy
  | _ => true

/-! ### The text extractor -/

/-- A PDF as `PyPDF2` presents it to `extract_text_from_pdf`: either the
`PdfReader` constructor raises (with some description), or the document
is a list of pages, each of whose `extract_text()` calls either returns
a string or raises. -/
inductive PdfDoc where
  | unreadable (msg : String)
  | pages (ps : List (Except String String))

/-- The page loop of lines 129-131: fold `text += page.extract_text()`
over the pages in document order, propagating the first exception. -/
def extractPagesLoop : List (Except String String) → String → Except String String
  | [], acc => .ok acc
  | (Except.ok t) :: rest, acc => extractPagesLoop rest (acc ++ t)
  | (Except.error e) :: _, _ => .error e

/-- `extract_text_from_pdf` (lines 122-135).  `Except.error msg` models
the `except` branch: `st.error` shows "Error reading PDF file" with the
exception description and the function returns `None`; no partial
concatenation survives. -/
def extract_text_from_pdf (doc : PdfDoc) : Except String String :=
  match doc with
  | .unreadable e => .error e
  | .pages ps => extractPagesLoop ps ""

/-- An upload as the module-level code sees it: declared MIME type plus
content.  A text file carries its raw bytes; a PDF carries the `PdfDoc`
abstraction; any other MIME type is rejected. -/
inductive Upload where
  | txt (bytes : List Nat)
  | pdf (doc : PdfDoc)
  | other (mime : String)

/-- What the `file_content` computation of lines 228-234 ends in. -/
inductive ExtractResult where
  | content (s : String)
  | failed
  | crash

/-- Whether two extraction results are the same observable state. -/
def ExtractResult.beq : ExtractResult → ExtractResult → Bool
  | .content a, .content b => a = b
  | .failed, .failed => true
  | .crash, .crash => true
  | _, _ => false

/-- `io.StringIO(s).read()` of line 230: `StringIO` is constructed with
its default `newline` argument, which performs no translation, and
`read()` returns the whole buffer, so the string passes through
verbatim. -/
def stringIORead (s : String) : String := s

/-- Lines 228-234: `text/plain` decodes the raw bytes as UTF-8 (an
invalid byte sequence raises `UnicodeDecodeError`, which no handler
catches — the script run crashes); `application/pdf` goes through
`extract_text_from_pdf`, whose `None` leaves `file_content = None`;
any other type shows the unsupported-type error and extracts nothing. -/
def extractUpload (u : Upload) : ExtractResult :=
  match u with
  | .txt bs =>
    match utf8Decode bs with
    | some s => .content (stringIORead s)
    | none => .crash
  | .pdf doc =>
    match extract_text_from_pdf doc with
    | .ok t => .content t
    | .error _ => .failed
  | .other _ => .failed

/-- Lines 236-242: the summarize button (and with it the API call) is
reachable only inside `if file_content:`, so a run can only be attempted
when extraction produced a truthy (nonempty) string. -/
def summarizeAttempted (e : ExtractResult) : Bool :=
  match e with
  | .content s => decide (s ≠ "")
  | _ => false

/-! ### The prompt builder (lines 28-91)

`summarize_document` builds the request payload from `document_text`
alone: the prompt f-string interpolates only `document_text`, and the
generation config with its response schema is a literal.  No clock,
random source, or other ambient input occurs anywhere in lines 28-91,
which is why the construction is embedded as a plain function of the
document text. -/

/-- The prompt f-string text before the interpolated document. -/
def promptPrefix : String :=
  "\n    You are an AI assistant specialized in summarizing insurance documents.\n    Please read the following insurance document and extract the following information in a structured JSON format:\n    1.  A concise overall \x27summary\x27 of the document.\n    2.  A list of \x27coverages\x27 provided by the policy.\n    3.  A list of \x27exclusions\x27 (what is not covered) by the policy.\n    4.  \x27policyDetails\x27 as an object containing:\n        -   \x27policyNumber\x27 (if found)\n        -   \x27policyHolder\x27 (if found)\n        -   \x27effectiveDate\x27 (if found, e.g., \"YYYY-MM-DD\")\n        -   \x27expirationDate\x27 (if found, e.g., \"YYYY-MM-DD\")\n        -   \x27premium\x27 (if found, e.g., \"USD 1200\" or \"1200 per year\")\n        -   \x27otherDetails\x27 (a list of any other significant policy details not covered above).\n\n    If a piece of information is not explicitly found, use \"N/A\" for strings or an empty list for arrays.\n    Ensure the output is valid JSON.\n\n    Document:\n    ---\n    "

/-- The prompt f-string text after the interpolated document. -/
def promptSuffix : String := "\n    ---\n    "

/-- The prompt of lines 29-50 with the document text interpolated. -/
def promptText (document_text : String) : String :=
  promptPrefix ++ document_text ++ promptSuffix

/-- The `responseSchema` literal of lines 60-89. -/
def responseSchema : JVal :=
  .obj [
    ("type", .str "OBJECT"),
    ("properties", .obj [
      ("summary", .obj [("type", .str "STRING")]),
      ("coverages", .obj [("type", .str "ARRAY"), ("items", .obj [("type", .str "STRING")])]),
      ("exclusions", .obj [("type", .str "ARRAY"), ("items", .obj [("type", .str "STRING")])]),
      ("policyDetails", .obj [
        ("type", .str "OBJECT"),
        ("properties", .obj [
          ("policyNumber", .obj [("type", .str "STRING")]),
          ("policyHolder", .obj [("type", .str "STRING")]),
          ("effectiveDate", .obj [("type", .str "STRING")]),
          ("expirationDate", .obj [("type", .str "STRING")]),
          ("premium", .obj [("type", .str "STRING")]),
          ("otherDetails", .obj [("type", .str "ARRAY"), ("items", .obj [("type", .str "STRING")])])
        ]),
        ("propertyOrdering", .arr [.str "policyNumber", .str "policyHolder",
          .str "effectiveDate", .str "expirationDate", .str "premium", .str "otherDetails"])
      ])
    ]),
    ("propertyOrdering", .arr [.str "summary", .str "coverages", .str "exclusions", .str "policyDetails"])
  ]

/-- The `generationConfig` literal of lines 58-90. -/
def generationConfig : JVal :=
  .obj [("responseMimeType", .str "application/json"), ("responseSchema", responseSchema)]

/-- The request payload of lines 51-91: the single-entry chat history
with the prompt, plus the generation config. -/
def buildPayload (document_text : String) : JVal :=
  .obj [
    ("contents", .arr [
      .obj [("role", .str "user"),
            ("parts", .arr [.obj [("text", .str (promptText document_text))]])]]),
    ("generationConfig", generationConfig)
  ]

/-! ### Rendering reads (lines 251-294)

The report renderer never builds a record; it reads each field of the
returned dict with an inline default.  The functions below are those
read expressions.  Python `for` iteration is modelled by `pyIter`
(a list iterates its elements, a string its characters, a dict its
keys; other values raise `TypeError`). -/

/-- Python iteration over a JSON value. -/
def pyIter (j : JVal) : Except Unit (List JVal) :=
  match j with
  | .arr xs => .ok xs
  | .str s => .ok (s.toList.map (fun c => .str (String.mk [c])))
  | .obj kvs => .ok (kvs.map (fun kv => JVal.str kv.1))
  | _ => .error ()

/-- Line 256: `summary_data.get("summary", "N/A")`. -/
def readSummary (d : JVal) : Except Unit JVal :=
  pyGetMethodD d "summary" (.str "N/A")

/-- Lines 259-263: the bullet items rendered for coverages — the list
iterated when `summary_data.get("coverages")` is truthy, and nothing
(the "No specific coverages" message) otherwise. -/
def renderedCoverages (d : JVal) : Except Unit (List JVal) := do
  let c ← pyGetMethod d "coverages"
  if c.truthy then
    pyIter (← pySubscriptStr d "coverages")
  else
    return []

/-- Lines 266-270: same for exclusions. -/
def renderedExclusions (d : JVal) : Except Unit (List JVal) := do
  let c ← pyGetMethod d "exclusions"
  if c.truthy then
    pyIter (← pySubscriptStr d "exclusions")
  else
    return []

/-- Line 273: `policy_details = summary_data.get("policyDetails", {})`. -/
def readPolicyDetails (d : JVal) : Except Unit JVal :=
  pyGetMethodD d "policyDetails" (.obj [])

/-- Lines 273 and 278-282: the value a policy-details table cell reads,
`policy_details.get(key, "N/A")`.  (The table markup itself is emitted
only when `policy_details` is truthy; the cell reads are these.) -/
def readPolicyField (d : JVal) (k : String) : Except Unit JVal := do
  let pd ← readPolicyDetails d
  pyGetMethodD pd k (.str "N/A")

/-- Lines 286-289: the bullet items rendered for
`policy_details.get("otherDetails")`. -/
def renderedOtherDetails (d : JVal) : Except Unit (List JVal) := do
  let pd ← readPolicyDetails d
  let od ← pyGetMethod pd "otherDetails"
  if od.truthy then
    pyIter (← pySubscriptStr pd "otherDetails")
  else
    return []

/-! ### Concrete inputs used by the theorems below -/

/-- Concatenation of the per-page texts in document order with no
separators. -/
def concatTexts : List String → String
  | [] => ""
  | t :: ts => t ++ concatTexts ts

/-- The dict decoded from the JSON text holding only a summary field. -/
def summaryOnly : JVal := JVal.obj [("summary", JVal.str "ok")]

/-- Envelope whose first candidate part's text is the JSON document with
only a summary field. -/
def envOkText : String :=
  "\x7b\"candidates\":[\x7b\"content\":\x7b\"parts\":[\x7b\"text\":\"\x7b\\\"summary\\\":\\\"ok\\\"\x7d\"\x7d]\x7d\x7d]\x7d"

/-- Envelope whose first candidate part's text is the empty JSON object. -/
def envEmptyObjText : String :=
  "\x7b\"candidates\":[\x7b\"content\":\x7b\"parts\":[\x7b\"text\":\"\x7b\x7d\"\x7d]\x7d\x7d]\x7d"

/-- Envelope with candidates, content and a nonempty parts list whose
first part has no text field. -/
def envNoText : String :=
  "\x7b\"candidates\":[\x7b\"content\":\x7b\"parts\":[\x7b\x7d]\x7d\x7d]\x7d"

/-- Envelope whose first candidate part's text is not decodable JSON. -/
def envBadCandidate : String :=
  "\x7b\"candidates\":[\x7b\"content\":\x7b\"parts\":[\x7b\"text\":\"not json\"\x7d]\x7d\x7d]\x7d"

/-! ### Theorems -/

/-- C1: parsing the JSON text holding only `summary = "ok"` yields a dict
whose read-time views are fully defaulted — the summary read gives "ok",
the coverage and exclusion renderings give the empty list, every
policy-details field read (`policyNumber`, `policyHolder`,
`effectiveDate`, `expirationDate`, `premium`) gives the sentinel "N/A",
and the other-details rendering gives the empty list, so no consumer
observes a missing field beyond the defined sentinels. -/
theorem defaults_substituted_after_parse :
    parseJson "\x7b\"summary\":\"ok\"\x7d" = some summaryOnly
    ∧ readSummary summaryOnly = Except.ok (JVal.str "ok")
    ∧ renderedCoverages summaryOnly = Except.ok []
    ∧ renderedExclusions summaryOnly = Except.ok []
    ∧ readPolicyField summaryOnly "policyNumber" = Except.ok (JVal.str "N/A")
    ∧ readPolicyField summaryOnly "policyHolder" = Except.ok (JVal.str "N/A")
    ∧ readPolicyField summaryOnly "effectiveDate" = Except.ok (JVal.str "N/A")
    ∧ readPolicyField summaryOnly "expirationDate" = Except.ok (JVal.str "N/A")
    ∧ readPolicyField summaryOnly "premium" = Except.ok (JVal.str "N/A")
    ∧ renderedOtherDetails summaryOnly = Except.ok [] :=
  ⟨rfl, rfl, rfl, rfl, rfl, rfl, rfl, rfl, rfl, rfl⟩

/-- C2 counterexample: the code does not remove exactly the first 7 and
last 3 characters of a fenced candidate — after the slice it also
applies `.strip()`.  On the fenced input whose inner text carries
surrounding spaces, the result differs from the exact-slice prediction. -/
theorem fence_strip_not_exact_slice :
    stripFence "```json 1 ```" = "1"
    ∧ ("```json 1 ```".drop 7).dropRight 3 = " 1 "
    ∧ ("1" : String) ≠ " 1 " :=
  ⟨by decide, by decide, by decide⟩

/-- C2 amended: a candidate that starts with the literal fence prefix and
ends with the fence suffix is sliced as `json_string[7:-3]` and then
whitespace-stripped at both ends; any other candidate passes to the JSON
decoder unchanged.  The spec's exact example (no surrounding whitespace)
comes out as the bare JSON document. -/
theorem fence_stripping_amended (s : String) :
    stripFence s =
      (if pyStartswith s "```json" && pyEndswith s "```" then pyStrip ((s.drop 7).dropRight 3) else s)
    ∧ stripFence "```json\x7b\"summary\":\"x\"\x7d```" = "\x7b\"summary\":\"x\"\x7d"
    ∧ stripFence "no fence \x7b\"summary\":\"x\"\x7d" = "no fence \x7b\"summary\":\"x\"\x7d" :=
  ⟨rfl, by decide, by decide⟩

/-- C8: the request construction is a pure function of the document
text — two runs on the same text produce identical payloads, the
generation config with the response schema is the same static constant
for every document, and the prompt is the fixed instruction text with
the document interpolated between fixed prefix and suffix. -/
theorem prompt_builder_deterministic (t : String) :
    buildPayload t = buildPayload t
    ∧ pyGetMethod (buildPayload t) "generationConfig" = Except.ok generationConfig
    ∧ promptText t = promptPrefix ++ t ++ promptSuffix :=
  ⟨rfl, rfl, rfl⟩

/-- C10: an API reply can decode successfully and still be reported as
outright failure — whenever the decoded JSON value is falsy the page
shows the failure message instead of a report, and the concrete reply
whose candidate text is the empty object decodes to `ok` yet displays
the failure message. -/
theorem falsy_decode_displays_failure (j : JVal) (h : j.truthy = false) :
    displaysFailureMessage (Outcome.ok j) = true
    ∧ summarize_document ⟨200, envEmptyObjText⟩ = Outcome.ok (JVal.obj [])
    ∧ displaysFailureMessage (summarize_document ⟨200, envEmptyObjText⟩) = true := by
  refine ⟨?_, rfl, rfl⟩
  simp [displaysFailureMessage, h]

/-- C10 witness: the empty dict is falsy and its run displays the
failure message. -/
theorem falsy_decode_displays_failure_witness :
    displaysFailureMessage (Outcome.ok (JVal.obj [])) = true
    ∧ summarize_document ⟨200, envEmptyObjText⟩ = Outcome.ok (JVal.obj [])
    ∧ displaysFailureMessage (summarize_document ⟨200, envEmptyObjText⟩) = true :=
  falsy_decode_displays_failure (JVal.obj []) rfl

/-- Helper: below the error-status range and with a decodable body,
`summarize_document` is the envelope handler applied to the parsed
body. -/
theorem summarize_eq_handleParsed (r : HttpResponse) (result : JVal)
    (hst : ¬(400 ≤ r.status ∧ r.status < 600))
    (hparse : parseJson r.body = some result) :
    summarize_document r = handleParsed r.body result := by
  unfold summarize_document
  rw [if_neg hst, hparse]

/-- C5 counterexample: a non-success HTTP status outside the 4xx/5xx
range is not turned into an API failure — `raise_for_status` does not
raise on a 303, so the code proceeds, decodes the envelope, and even
stores a summary for the session. -/
theorem non2xx_not_always_apiError :
    summarize_document ⟨303, envOkText⟩ = Outcome.ok summaryOnly
    ∧ sessionAfterRun (summarize_document ⟨303, envOkText⟩) = some summaryOnly
    ∧ Outcome.ok summaryOnly ≠ Outcome.apiError 303 envOkText :=
  ⟨rfl, rfl, fun h => Outcome.noConfusion h⟩

/-- C5 amended: on a 4xx or 5xx HTTP status (the statuses
`raise_for_status` treats as errors), summarization fails with the API
failure carrying the status and response at hand, no summary is stored
for the session, and no retry happens — the embedding consumes exactly
the one response of the single POST, so a re-attempt is a fresh
invocation. -/
theorem apiError_on_4xx_5xx (status : Nat) (body : String)
    (h1 : 400 ≤ status) (h2 : status < 600) :
    summarize_document ⟨status, body⟩ = Outcome.apiError status body
    ∧ sessionAfterRun (summarize_document ⟨status, body⟩) = none := by
  unfold summarize_document
  rw [if_pos ⟨h1, h2⟩]
  exact ⟨rfl, rfl⟩

/-- C5 witness: HTTP 500 yields the API failure and leaves no stored
summary. -/
theorem apiError_on_4xx_5xx_witness :
    summarize_document ⟨500, "Internal Server Error"⟩
        = Outcome.apiError 500 "Internal Server Error"
    ∧ sessionAfterRun (summarize_document ⟨500, "Internal Server Error"⟩) = none :=
  apiError_on_4xx_5xx 500 "Internal Server Error" (by decide) (by decide)

/-- C6 counterexample: a 2xx envelope with candidates, content and a
nonempty parts list whose first part has no text field does not produce
the empty-response failure — the `["text"]` lookup raises `KeyError`,
which the catch-all handler reports as an unexpected error without
showing the envelope. -/
theorem missing_text_field_not_emptyResponse :
    summarize_document ⟨200, envNoText⟩ = Outcome.unexpectedError
    ∧ (summarize_document ⟨200, envNoText⟩).isEmptyResponse = false :=
  ⟨rfl, rfl⟩

/-- C6 amended: on a 2xx response whose decoded envelope fails the
truthiness chain over `candidates`, `candidates[0].content` and
`candidates[0].content.parts`, summarization fails with the
empty-response failure carrying the raw envelope for diagnostic display;
a missing `text` field in the first part instead raises and is reported
by the generic handler. -/
theorem emptyResponse_on_falsy_candidate_path (status : Nat) (body : String) (result : JVal)
    (h1 : 200 ≤ status) (h2 : status < 300)
    (hparse : parseJson body = some result)
    (hcond : extractCandidateText result = Except.ok none) :
    summarize_document ⟨status, body⟩ = Outcome.emptyResponse result := by
  rw [summarize_eq_handleParsed ⟨status, body⟩ result
    (show ¬(400 ≤ status ∧ status < 600) by omega) hparse]
  unfold handleParsed
  rw [hcond]

/-- C6 witness: a 200 response whose body is the empty JSON object has a
falsy candidates entry and fails with the empty-response failure
carrying that envelope. -/
theorem emptyResponse_on_falsy_candidate_path_witness :
    summarize_document ⟨200, "\x7b\x7d"⟩ = Outcome.emptyResponse (JVal.obj []) :=
  emptyResponse_on_falsy_candidate_path 200 "\x7b\x7d" (JVal.obj [])
    (by decide) (by decide) rfl rfl

/-- C7: whenever the candidate text extracted from a decoded 2xx envelope
is, after fence stripping, not decodable as JSON, summarization fails
with the decode failure carrying the raw response text for diagnostic
display, and no summary is stored for the session. -/
theorem decode_failure_yields_decodeError (r : HttpResponse) (result : JVal) (s : String)
    (hst : ¬(400 ≤ r.status ∧ r.status < 600))
    (hparse : parseJson r.body = some result)
    (htext : extractCandidateText result = Except.ok (some (JVal.str s)))
    (hbad : parseJson (stripFence s) = none) :
    summarize_document r = Outcome.decodeError r.body
    ∧ sessionAfterRun (summarize_document r) = none := by
  have h2 : handleParsed r.body result = Outcome.decodeError r.body := by
    calc handleParsed r.body result
        = (match parseJson (stripFence s) with
           | some j => Outcome.ok j
           | none => Outcome.decodeError r.body) := by
          unfold handleParsed
          rw [htext]
      _ = Outcome.decodeError r.body := by rw [hbad]
  rw [summarize_eq_handleParsed r result hst hparse, h2]
  exact ⟨rfl, rfl⟩

/-- C7 witness: a 200 envelope whose candidate text is "not json" fails
with the decode failure carrying the raw response text. -/
theorem decode_failure_yields_decodeError_witness :
    summarize_document ⟨200, envBadCandidate⟩ = Outcome.decodeError envBadCandidate
    ∧ sessionAfterRun (summarize_document ⟨200, envBadCandidate⟩) = none :=
  decode_failure_yields_decodeError ⟨200, envBadCandidate⟩
    (JVal.obj [("candidates", JVal.arr [JVal.obj [("content", JVal.obj [("parts",
      JVal.arr [JVal.obj [("text", JVal.str "not json")]])])]])])
    "not json" (show ¬(400 ≤ (200 : Nat) ∧ (200 : Nat) < 600) by omega) rfl rfl rfl

/-- Helper: the page loop over pages that all extract successfully
returns the accumulator followed by the page texts in order. -/
theorem extractPagesLoop_all_ok (ts : List String) (acc : String) :
    extractPagesLoop (ts.map Except.ok) acc = Except.ok (acc ++ concatTexts ts) := by
  induction ts generalizing acc with
  | nil => simp [extractPagesLoop, concatTexts]
  | cons t ts ih =>
    show extractPagesLoop (ts.map Except.ok) (acc ++ t) = _
    rw [ih (acc ++ t), String.append_assoc]
    rfl

/-- Helper: the page loop fails when some page extraction raises. -/
theorem extractPagesLoop_error (ps : List (Except String String)) (e : String) (acc : String)
    (h : Except.error e ∈ ps) :
    ∃ msg, extractPagesLoop ps acc = Except.error msg := by
  induction ps generalizing acc with
  | nil => cases h
  | cons p ps ih =>
    cases p with
    | ok t =>
      have h2 : Except.error e ∈ ps := by
        rcases List.mem_cons.mp h with h3 | h3
        · cases h3
        · exact h3
      exact ih (acc ++ t) h2
    | error msg => exact ⟨msg, rfl⟩

/-- C3: on a PDF whose pages all extract, the result is the page texts
concatenated in document order with no added separators; and whenever
any page extraction raises, the whole extraction fails with the
PDF-read failure carrying an exception description — no partial text is
returned. -/
theorem pdf_text_concatenation (ts : List String) (ps : List (Except String String)) (e : String)
    (hmem : Except.error e ∈ ps) :
    extract_text_from_pdf (PdfDoc.pages (ts.map Except.ok)) = Except.ok (concatTexts ts)
    ∧ ∃ msg, extract_text_from_pdf (PdfDoc.pages ps) = Except.error msg := by
  constructor
  · show extractPagesLoop (ts.map Except.ok) "" = Except.ok (concatTexts ts)
    rw [extractPagesLoop_all_ok, String.empty_append]
  · exact extractPagesLoop_error ps e "" hmem

/-- C3 witness: two extractable pages concatenate in order; a failing
second page fails the whole extraction. -/
theorem pdf_text_concatenation_witness :
    extract_text_from_pdf (PdfDoc.pages (["Page one. ", "Page two."].map Except.ok))
        = Except.ok (concatTexts ["Page one. ", "Page two."])
    ∧ ∃ msg, extract_text_from_pdf
        (PdfDoc.pages [Except.ok "Page one. ", Except.error "bad xref"]) = Except.error msg :=
  pdf_text_concatenation ["Page one. ", "Page two."]
    [Except.ok "Page one. ", Except.error "bad xref"] "bad xref"
    (List.mem_cons_of_mem _ (List.mem_cons_self _ _))

/-- Helper: the page loop over pages that all extract to the empty
string leaves the accumulator unchanged. -/
theorem extractPagesLoop_all_empty (ps : List (Except String String)) (acc : String)
    (h : ∀ p ∈ ps, p = Except.ok "") :
    extractPagesLoop ps acc = Except.ok acc := by
  induction ps generalizing acc with
  | nil => rfl
  | cons p ps ih =>
    have hp := h p (List.mem_cons_self p ps)
    subst hp
    show extractPagesLoop ps (acc ++ "") = Except.ok acc
    rw [String.append_empty]
    exact ih acc (fun q hq => h q (List.mem_cons_of_mem _ hq))

/-- C9: a PDF with no pages or whose pages all extract to empty text
extracts to the empty string, the module-level flow stores it as content
without crashing, and — the empty string being falsy — the summarize
button never becomes reachable, so no summarization is attempted. -/
theorem empty_pdf_no_summarization (ps : List (Except String String))
    (h : ∀ p ∈ ps, p = Except.ok "") :
    extract_text_from_pdf (PdfDoc.pages ps) = Except.ok ""
    ∧ extractUpload (Upload.pdf (PdfDoc.pages ps)) = ExtractResult.content ""
    ∧ summarizeAttempted (extractUpload (Upload.pdf (PdfDoc.pages ps))) = false := by
  have h1 : extract_text_from_pdf (PdfDoc.pages ps) = Except.ok "" :=
    extractPagesLoop_all_empty ps "" h
  have h2 : extractUpload (Upload.pdf (PdfDoc.pages ps)) = ExtractResult.content "" := by
    show (match extract_text_from_pdf (PdfDoc.pages ps) with
          | Except.ok t => ExtractResult.content t
          | Except.error _ => ExtractResult.failed) = ExtractResult.content ""
    rw [h1]
  refine ⟨h1, h2, ?_⟩
  rw [h2]
  rfl

/-- C9 witness: a two-page PDF whose pages both extract to empty text. -/
theorem empty_pdf_no_summarization_witness :
    extract_text_from_pdf (PdfDoc.pages [Except.ok "", Except.ok ""]) = Except.ok ""
    ∧ extractUpload (Upload.pdf (PdfDoc.pages [Except.ok "", Except.ok ""]))
        = ExtractResult.content ""
    ∧ summarizeAttempted (extractUpload (Upload.pdf (PdfDoc.pages [Except.ok "", Except.ok ""])))
        = false :=
  empty_pdf_no_summarization [Except.ok "", Except.ok ""] (by
    intro p hp
    rcases List.mem_cons.mp hp with h | h
    · exact h
    · rcases List.mem_cons.mp h with h2 | h2
      · exact h2
      · cases h2)


/-- Helper: the encoding of one character is never empty. -/
theorem utf8EncodeChar_ne_nil (c : Char) : utf8EncodeChar c ≠ [] := by
  simp only [utf8EncodeChar]
  split_ifs <;> simp

/-- Helper: decoding one code point from the UTF-8 encoding of a
character followed by arbitrary bytes recovers the character and leaves
the trailing bytes untouched. -/
theorem utf8DecodeOne_encodeChar (c : Char) (bs : List Nat) :
    utf8DecodeOne (utf8EncodeChar c ++ bs) = some (c, bs) := by
  have hvalid : c.toNat < 0xd800 ∨ (0xdfff < c.toNat ∧ c.toNat < 0x110000) := c.valid
  have hofNat := Char.ofNat_toNat c
  by_cases h1 : c.toNat < 0x80
  · have henc : utf8EncodeChar c = [c.toNat] := by simp [utf8EncodeChar, h1]
    rw [henc]
    simp only [List.cons_append, List.nil_append, utf8DecodeOne]
    rw [if_pos h1, hofNat]
  · by_cases h2 : c.toNat < 0x800
    · have henc : utf8EncodeChar c = [0xc0 + c.toNat / 0x40, 0x80 + c.toNat % 0x40] := by
        simp [utf8EncodeChar, h1, h2]
      rw [henc]
      simp only [List.cons_append, List.nil_append, utf8DecodeOne]
      have ha : ¬(0xc0 + c.toNat / 0x40 < 0x80) := by omega
      have hb : ¬(0xc0 + c.toNat / 0x40 < 0xc2) := by omega
      have hc : 0xc0 + c.toNat / 0x40 < 0xe0 := by omega
      rw [if_neg ha, if_neg hb, if_pos hc]
      simp only [decodeTwo]
      have hd : 0x80 ≤ 0x80 + c.toNat % 0x40 ∧ 0x80 + c.toNat % 0x40 < 0xc0 := by omega
      rw [if_pos hd]
      have harg : (0xc0 + c.toNat / 0x40 - 0xc0) * 0x40 + (0x80 + c.toNat % 0x40 - 0x80)
          = c.toNat := by omega
      rw [harg, hofNat]
    · by_cases h3 : c.toNat < 0x10000
      · have henc : utf8EncodeChar c
            = [0xe0 + c.toNat / 0x1000, 0x80 + (c.toNat / 0x40) % 0x40,
               0x80 + c.toNat % 0x40] := by
          simp [utf8EncodeChar, h1, h2, h3]
        rw [henc]
        simp only [List.cons_append, List.nil_append, utf8DecodeOne]
        have hdd : c.toNat / 0x40 / 0x40 = c.toNat / 0x1000 := by
          rw [Nat.div_div_eq_div_mul]
        have ha : ¬(0xe0 + c.toNat / 0x1000 < 0x80) := by omega
        have hb : ¬(0xe0 + c.toNat / 0x1000 < 0xc2) := by omega
        have hc : ¬(0xe0 + c.toNat / 0x1000 < 0xe0) := by omega
        have hd : 0xe0 + c.toNat / 0x1000 < 0xf0 := by omega
        rw [if_neg ha, if_neg hb, if_neg hc, if_pos hd]
        simp only [decodeThree]
        have hcont : (0x80 ≤ 0x80 + (c.toNat / 0x40) % 0x40
                ∧ 0x80 + (c.toNat / 0x40) % 0x40 < 0xc0)
            ∧ (0x80 ≤ 0x80 + c.toNat % 0x40 ∧ 0x80 + c.toNat % 0x40 < 0xc0)
            ∧ (0xe0 + c.toNat / 0x1000 = 0xe0 → 0xa0 ≤ 0x80 + (c.toNat / 0x40) % 0x40)
            ∧ (0xe0 + c.toNat / 0x1000 = 0xed → 0x80 + (c.toNat / 0x40) % 0x40 < 0xa0) := by
          omega
        rw [if_pos hcont]
        have harg : (0xe0 + c.toNat / 0x1000 - 0xe0) * 0x1000
            + (0x80 + (c.toNat / 0x40) % 0x40 - 0x80) * 0x40
            + (0x80 + c.toNat % 0x40 - 0x80) = c.toNat := by omega
        rw [harg, hofNat]
      · have henc : utf8EncodeChar c
            = [0xf0 + c.toNat / 0x40000, 0x80 + (c.toNat / 0x1000) % 0x40,
               0x80 + (c.toNat / 0x40) % 0x40, 0x80 + c.toNat % 0x40] := by
          simp [utf8EncodeChar, h1, h2, h3]
        rw [henc]
        simp only [List.cons_append, List.nil_append, utf8DecodeOne]
        have hdd1 : c.toNat / 0x40 / 0x40 = c.toNat / 0x1000 := by
          rw [Nat.div_div_eq_div_mul]
        have hdd2 : c.toNat / 0x1000 / 0x40 = c.toNat / 0x40000 := by
          rw [Nat.div_div_eq_div_mul]
        have ha : ¬(0xf0 + c.toNat / 0x40000 < 0x80) := by omega
        have hb : ¬(0xf0 + c.toNat / 0x40000 < 0xc2) := by omega
        have hc : ¬(0xf0 + c.toNat / 0x40000 < 0xe0) := by omega
        have hd : ¬(0xf0 + c.toNat / 0x40000 < 0xf0) := by omega
        have he : 0xf0 + c.toNat / 0x40000 < 0xf5 := by omega
        rw [if_neg ha, if_neg hb, if_neg hc, if_neg hd, if_pos he]
        simp only [decodeFour]
        have hcont : (0x80 ≤ 0x80 + (c.toNat / 0x1000) % 0x40
                ∧ 0x80 + (c.toNat / 0x1000) % 0x40 < 0xc0)
            ∧ (0x80 ≤ 0x80 + (c.toNat / 0x40) % 0x40 ∧ 0x80 + (c.toNat / 0x40) % 0x40 < 0xc0)
            ∧ (0x80 ≤ 0x80 + c.toNat % 0x40 ∧ 0x80 + c.toNat % 0x40 < 0xc0)
            ∧ (0xf0 + c.toNat / 0x40000 = 0xf0 → 0x90 ≤ 0x80 + (c.toNat / 0x1000) % 0x40)
            ∧ (0xf0 + c.toNat / 0x40000 = 0xf4 → 0x80 + (c.toNat / 0x1000) % 0x40 < 0x90) := by
          omega
        rw [if_pos hcont]
        have harg : (0xf0 + c.toNat / 0x40000 - 0xf0) * 0x40000
            + (0x80 + (c.toNat / 0x1000) % 0x40 - 0x80) * 0x1000
            + (0x80 + (c.toNat / 0x40) % 0x40 - 0x80) * 0x40
            + (0x80 + c.toNat % 0x40 - 0x80) = c.toNat := by omega
        rw [harg, hofNat]

/-- Helper: with enough fuel, decoding the encoding of a character list
recovers the list. -/
theorem utf8DecodeListF_encodeList (l : List Char) :
    ∀ fuel, (utf8EncodeList l).length ≤ fuel →
      utf8DecodeListF fuel (utf8EncodeList l) = some l := by
  induction l with
  | nil => intro fuel _; cases fuel <;> rfl
  | cons c cs ih =>
    intro fuel hf
    have hne := utf8EncodeChar_ne_nil c
    rcases hE : utf8EncodeChar c with _ | ⟨e1, erest⟩
    · exact absurd hE hne
    · have hlen : (utf8EncodeList (c :: cs)).length
          = (utf8EncodeChar c).length + (utf8EncodeList cs).length := by
        show (utf8EncodeChar c ++ utf8EncodeList cs).length = _
        exact List.length_append _ _
      cases fuel with
      | zero =>
        exfalso
        rw [hE] at hlen
        simp only [List.length_cons] at hlen
        omega
      | succ fuel2 =>
        have hstep : utf8EncodeList (c :: cs) = e1 :: (erest ++ utf8EncodeList cs) := by
          show utf8EncodeChar c ++ utf8EncodeList cs = _
          rw [hE]
          rfl
        have hkey : utf8DecodeOne (e1 :: (erest ++ utf8EncodeList cs))
            = some (c, utf8EncodeList cs) := by
          rw [← hstep]
          show utf8DecodeOne (utf8EncodeChar c ++ utf8EncodeList cs) = _
          exact utf8DecodeOne_encodeChar c (utf8EncodeList cs)
        have hfuel : (utf8EncodeList cs).length ≤ fuel2 := by
          rw [hE] at hlen
          simp only [List.length_cons] at hlen
          omega
        calc utf8DecodeListF (fuel2 + 1) (utf8EncodeList (c :: cs))
            = utf8DecodeListF (fuel2 + 1) (e1 :: (erest ++ utf8EncodeList cs)) := by rw [hstep]
          _ = (utf8DecodeListF fuel2 (utf8EncodeList cs)).map (fun cs2 => c :: cs2) := by
              show (match utf8DecodeOne (e1 :: (erest ++ utf8EncodeList cs)) with
                    | some (c2, rest) => (utf8DecodeListF fuel2 rest).map (fun cs2 => c2 :: cs2)
                    | none => none) = _
              rw [hkey]
          _ = some (c :: cs) := by
              rw [ih fuel2 hfuel]
              rfl

/-- C4: a plain-text upload whose bytes are the UTF-8 encoding of a
string extracts to exactly that string — the UTF-8 round trip holds with
no trimming and no normalization, leading and trailing whitespace
included. -/
theorem plain_text_utf8_roundtrip (s : String) :
    extractUpload (Upload.txt (utf8Encode s)) = ExtractResult.content s := by
  have h : utf8Decode (utf8Encode s) = some s := by
    show (match utf8DecodeListF (utf8EncodeList s.toList).length (utf8EncodeList s.toList) with
          | some cs => some (String.mk cs)
          | none => none) = some s
    rw [utf8DecodeListF_encodeList s.toList (utf8EncodeList s.toList).length (le_refl _)]
    rfl
  show (match utf8Decode (utf8Encode s) with
        | some t => ExtractResult.content (stringIORead t)
        | none => ExtractResult.crash) = ExtractResult.content s
  rw [h]
  rfl
